import Mathlib

/-!
Verification development for the SQLiteDBParser forensic SQLite-file reader
(`SQLiteDBParser.py`).  The Python source is shallowly embedded: the byte
buffer of the database file is a `List Nat` (each element a byte 0–255,
as guaranteed by Python's `bytes` type), Python exceptions are modelled by
`Except String`, and every bounded loop of the source is either structural
recursion or recursion on an explicit fuel counter whose exhaustion is
modelled as an error (the corresponding source loops can run unboundedly on
adversarial input, in which case the Python program never returns).

Machine integers do not occur: Python integers are unbounded, so `Nat` and
`Int` model them exactly.  Fields unpacked with signed `struct` formats are
`Int` via `toSigned`; unsigned ones are `Nat`.
-/

deriving instance DecidableEq for Except

namespace SQLiteDBParser

/-- Python index normalisation for a slice bound on a sequence of length
`n`: negative indices count from the end, and both directions clamp into
`[0, n]`. -/
def pyIdx (n : Nat) (i : Int) : Nat :=
  if i < 0 then ((n : Int) + i).toNat else min i.toNat n

/-- Python slice `l[a:b]` (step 1): elements from index `pyIdx n a` up to
(excluding) `pyIdx n b`.  Never fails, returns `[]` when the range is
empty, exactly like Python. -/
def pySlice (l : List α) (a b : Int) : List α :=
  (l.take (pyIdx l.length b)).drop (pyIdx l.length a)

/-- `pySlice` when both bounds are already natural numbers. -/
def pySliceN (l : List α) (a b : Nat) : List α :=
  pySlice l (a : Int) (b : Int)

/-- Big-endian value of a byte string, i.e. Python
`int.from_bytes(bs, byteorder='big')`: works for any length, `0` on the
empty string. -/
def beVal (bs : List Nat) : Nat :=
  bs.foldl (fun acc b => acc * 256 + b) 0

/-- Two's-complement reading of an `nbytes`-byte unsigned value, as done by
the signed `struct` formats `>b`, `>h`, `>i`, `>q`. -/
def toSigned (nbytes : Nat) (v : Nat) : Int :=
  if v < 2 ^ (8 * nbytes - 1) then (v : Int) else (v : Int) - 2 ^ (8 * nbytes)

/-- Python `struct.unpack` of one big-endian unsigned field of width `n`
from a byte string: raises `struct.error` unless the string has exactly
`n` bytes. -/
def unpackExactU (n : Nat) (bs : List Nat) : Except String Nat :=
  if bs.length = n then .ok (beVal bs) else .error "struct.error"

/-- Python `struct.unpack` of one big-endian signed field of width `n`. -/
def unpackExactS (n : Nat) (bs : List Nat) : Except String Int :=
  match unpackExactU n bs with
  | .ok v => .ok (toSigned n v)
  | .error e => .error e

/-!
### Variable-length integer decoder

Source: `_getVarIntOfs` (SQLiteDBParser.py lines 1196–1228).  The first
`while` loop scans forward while the current byte has its high bit set
(`ord(data[offset:offset+1]) & (1<<7) != 0`; bytes are 0–255, so the test
is `128 ≤ b`), counting `varintlen`; when the scan walks past the end of
the data, `data[offset:offset+1]` is empty and `ord(b'')` raises a
`TypeError`.  There is no cap at 9 bytes.  The second loop then computes
`varintval`: every byte before the last contributes `(byteval - 128) *
2^(7*i)` and the last contributes `byteval`.  All bytes before the last
have the high bit set (the scan guarantees it), so the subtraction never
goes below zero and `Nat` subtraction models Python exactly here.
-/

/-- Scan of the first `while` loop of `_getVarIntOfs`, applied to the data
suffix starting at the decode offset: length of the varint, or the
`TypeError` Python raises when the high bit never clears before the end
of the buffer. -/
def scanList : List Nat → Except String Nat
  | [] => .error "TypeError: ord() expected a character"
  | b :: rest =>
    if 128 ≤ b then
      match scanList rest with
      | .ok n => .ok (n + 1)
      | .error e => .error e
    else .ok 1

/-- Value computation of the second loop of `_getVarIntOfs`, applied to
the `varintlen` bytes of the varint. -/
def varIntVal : List Nat → Nat
  | [] => 0
  | [b] => b
  | b :: rest => (b - 128) * 2 ^ (7 * rest.length) + varIntVal rest

/-- `_getVarIntOfs(data, offset)`: the `(varintval, varintlen)` pair, or
the `TypeError` raised when the scan runs off the end of `data`. -/
def getVarIntOfs (data : List Nat) (offset : Nat) : Except String (Nat × Nat) :=
  match scanList (data.drop offset) with
  | .ok n => .ok (varIntVal ((data.drop offset).take n), n)
  | .error e => .error e

/-!
### Database file header

Source: `_unpackDBHeader` / `_parseDBHeader` (lines 604–605, 682–687).
`struct.unpack('>16sHbbbbbbiiiiiiiiiiii20sii', data[:100])` raises unless
the file holds at least 100 bytes; the `except` branch installs the string
`"No valid SQLite database"`, whose zip against the header keys makes
`signature` the single character `'N'` — never equal to the 16-byte
SQLite signature.  That placeholder is modelled as `none`.  Only the
header fields the embedded code consumes are retained; their byte offsets
follow the `struct` format string.
-/

/-- The fields of the 100-byte file header used by the parser. -/
structure DBHeader where
  signature : List Nat
  pageSize : Nat
  reserved : Int
  dbSize : Int
  textEncoding : Int
  incrementalVacuum : Int
  deriving DecidableEq

/-- The byte literal `SQLite format 3\x00`. -/
def SQLITE_SIGNATURE : List Nat :=
  [83, 81, 76, 105, 116, 101, 32, 102, 111, 114, 109, 97, 116, 32, 51, 0]

/-- `_parseDBHeader`: decode the 100-byte header, or the `'N'`-placeholder
(`none`) when the file is shorter than 100 bytes.  `signature` is the
`16s` field at offset 0; `pageSize` the unsigned `>H` at 16;
`unused_reserved_space` the signed `>b` at 20; `in_header_database_size`
the signed `>i` at 28; `database_text_encoding` the signed `>i` at 56;
`incremental_vacuum` the signed `>i` at 64. -/
def parseDBHeader (data : List Nat) : Option DBHeader :=
  if 100 ≤ data.length then
    some { signature := pySliceN data 0 16
           pageSize := beVal (pySliceN data 16 18)
           reserved := toSigned 1 (beVal (pySliceN data 20 21))
           dbSize := toSigned 4 (beVal (pySliceN data 28 32))
           textEncoding := toSigned 4 (beVal (pySliceN data 56 60))
           incrementalVacuum := toSigned 4 (beVal (pySliceN data 64 68)) }
  else none

/-!
### Local payload size

Source: `_getPayloadSizeInCell` (lines 1424–1441).  Note that the source
sets `usableSize = self.dbHeaderDict["pageSize"]` — it does NOT subtract
the reserved tail.  `int(((usableSize - 12) * 32 / 255))` is Python float
division followed by `int()` truncation toward zero; over the 16-bit page
sizes reachable here the float quotient is exact enough that this equals
integer truncation toward zero, i.e. `Int.tdiv`.
-/

/-- `_getPayloadSizeInCell(payloadWholeSize)` with the page size passed
explicitly in place of `self.dbHeaderDict["pageSize"]`. -/
def getPayloadSizeInCell (pageSize : Nat) (payloadWholeSize : Int) : Int :=
  let payloadSize : Int := payloadWholeSize
  let usableSize : Int := pageSize
  let maxLocal := usableSize - 35
  let minLocal := Int.tdiv ((usableSize - 12) * 32) 255 - 23
  if payloadSize ≤ maxLocal then payloadSize
  else
    let localSize := minLocal + (payloadSize - minLocal) % (usableSize - 4)
    if localSize > maxLocal then minLocal else localSize

/-- The specification's local-payload formula, taken from its words: with
usable size `U`, `maxLocal = U − 35`, `minLocal = ⌊(U − 12)·32/255⌋ − 23`
(a floor, hence `Int.fdiv`); a payload of length `L ≤ maxLocal` is wholly
local, otherwise the local portion is `minLocal + ((L − minLocal) mod
(U − 4))`, reduced (to `minLocal`, as in the SQLite algorithm the spec
paraphrases) whenever that value would exceed `maxLocal`.  The spec
instantiates `U = page_size − reserved_tail`. -/
def specLocalPayload (u : Int) (l : Int) : Int :=
  let maxLocal := u - 35
  let minLocal := Int.fdiv ((u - 12) * 32) 255 - 23
  if l ≤ maxLocal then l
  else
    let localSize := minLocal + (l - minLocal) % (u - 4)
    if localSize > maxLocal then minLocal else localSize

/-!
### Serial types, field values, text decoding

Source: the serial-type dispatch in `_parseLeafTableCellHeader`
(lines 1486–1517) and the field-decoding loop of `_parseCell`
(lines 1270–1317).
-/

/-- One parsed serial-type entry of a payload header, the
`(String type, int length)` pairs of the source's `headerlist`.  Blob and
text widths `(code−12)/2` and `(code−13)/2` are exact integer halves of
even numbers, so `Nat` models the Python float exactly. -/
inductive FieldDesc where
  | nullT
  | int8T
  | int16T
  | int24T
  | int32T
  | int48T
  | int64T
  | floatT
  | c0T
  | c1T
  | blobT (width : Nat)
  | textT (width : Nat)
  | reservedT (code : Nat)
  deriving DecidableEq

/-- Whether a serial-type entry is one of the source's `Reserved: …`
descriptors (serial types 10 and 11), the only kind for which the
field-decoding loops append nothing. -/
def FieldDesc.isReserved : FieldDesc → Bool
  | .reservedT _ => true
  | _ => false

/-- A decoded field value as appended to `celldatalist`.  Python literal
strings such as `"-"`, `"0"`, `"1"` and decoded text are `text` with their
code points; the `str(bytes)` fallback of a failed text decode is
`strRepr` carrying the undecodable bytes; a float is kept as its 8 raw
big-endian bytes' value (`floatBits`) since no claim touches float
arithmetic. -/
inductive Value where
  | intV (i : Int)
  | floatBits (bits : Nat)
  | text (codepoints : List Nat)
  | strRepr (bs : List Nat)
  | blobV (bs : List Nat)
  deriving DecidableEq

/-- Strict UTF-8 decoding as performed by Python's `bytes.decode('UTF-8')`:
rejects truncated sequences, overlong encodings, surrogate code points and
values above `0x10FFFF`.  Returns the code points on success. -/
def utf8Decode : List Nat → Option (List Nat)
  | [] => some []
  | b :: rest =>
    if b < 0x80 then
      (utf8Decode rest).map (b :: ·)
    else if 0xC2 ≤ b ∧ b ≤ 0xDF then
      match rest with
      | c1 :: rest1 =>
        if 0x80 ≤ c1 ∧ c1 ≤ 0xBF then
          (utf8Decode rest1).map (((b - 0xC0) * 64 + (c1 - 0x80)) :: ·)
        else none
      | _ => none
    else if 0xE0 ≤ b ∧ b ≤ 0xEF then
      match rest with
      | c1 :: c2 :: rest2 =>
        let lo1 := if b = 0xE0 then 0xA0 else 0x80
        let hi1 := if b = 0xED then 0x9F else 0xBF
        if (lo1 ≤ c1 ∧ c1 ≤ hi1) ∧ (0x80 ≤ c2 ∧ c2 ≤ 0xBF) then
          (utf8Decode rest2).map
            (((b - 0xE0) * 4096 + (c1 - 0x80) * 64 + (c2 - 0x80)) :: ·)
        else none
      | _ => none
    else if 0xF0 ≤ b ∧ b ≤ 0xF4 then
      match rest with
      | c1 :: c2 :: c3 :: rest3 =>
        let lo1 := if b = 0xF0 then 0x90 else 0x80
        let hi1 := if b = 0xF4 then 0x8F else 0xBF
        if (lo1 ≤ c1 ∧ c1 ≤ hi1) ∧ (0x80 ≤ c2 ∧ c2 ≤ 0xBF) ∧
            (0x80 ≤ c3 ∧ c3 ≤ 0xBF) then
          (utf8Decode rest3).map
            (((b - 0xF0) * 262144 + (c1 - 0x80) * 4096 +
              (c2 - 0x80) * 64 + (c3 - 0x80)) :: ·)
        else none
      | _ => none
    else none

/-- The text-field decode of `_parseCell` (lines 1305–1314): always
`decode('UTF-8')` — the file's declared text encoding is never consulted —
falling back to Python `str(bytes)` (which displays the raw bytes) when
UTF-8 decoding raises. -/
def decodeTextField (bs : List Nat) : Value :=
  match utf8Decode bs with
  | some cps => .text cps
  | none => .strRepr bs

/-- UTF-16LE decoding of a byte string (for the specification side of the
text-encoding claim): bytes are paired little-endian; surrogate pairs
combine; a lone or misordered surrogate, or an odd trailing byte, fails. -/
def utf16leDecode : List Nat → Option (List Nat)
  | [] => some []
  | [_] => none
  | b0 :: b1 :: rest =>
    let u := b0 + 256 * b1
    if 0xD800 ≤ u ∧ u ≤ 0xDBFF then
      match rest with
      | b2 :: b3 :: rest2 =>
        let v := b2 + 256 * b3
        if 0xDC00 ≤ v ∧ v ≤ 0xDFFF then
          (utf16leDecode rest2).map
            ((0x10000 + (u - 0xD800) * 1024 + (v - 0xDC00)) :: ·)
        else none
      | _ => none
    else if 0xDC00 ≤ u ∧ u ≤ 0xDFFF then none
    else (utf16leDecode rest).map (u :: ·)

/-- UTF-16BE decoding of a byte string (specification side only). -/
def utf16beDecode : List Nat → Option (List Nat)
  | [] => some []
  | [_] => none
  | b0 :: b1 :: rest =>
    let u := 256 * b0 + b1
    if 0xD800 ≤ u ∧ u ≤ 0xDBFF then
      match rest with
      | b2 :: b3 :: rest2 =>
        let v := 256 * b2 + b3
        if 0xDC00 ≤ v ∧ v ≤ 0xDFFF then
          (utf16beDecode rest2).map
            ((0x10000 + (u - 0xD800) * 1024 + (v - 0xDC00)) :: ·)
        else none
      | _ => none
    else if 0xDC00 ≤ u ∧ u ≤ 0xDFFF then none
    else (utf16beDecode rest).map (u :: ·)

/-- The specification's text-field decode: honour the file's declared text
encoding (1 = UTF-8, 2 = UTF-16LE, 3 = UTF-16BE), falling back to the raw
bytes when decoding fails.  The fallback is modelled with the same
constructor as the source's `str(bytes)` fallback so that the refinement
comparison isolates the encoding selection, which is what the claim is
about. -/
def specTextDecode (enc : Int) (bs : List Nat) : Value :=
  let dec := if enc = 1 then utf8Decode bs
             else if enc = 2 then utf16leDecode bs
             else if enc = 3 then utf16beDecode bs
             else none
  match dec with
  | some cps => .text cps
  | none => .strRepr bs

/-- `_unpack48` (lines 1663–1664): `int.from_bytes(x, byteorder='big')` —
an UNSIGNED big-endian read, of whatever length the slice has. -/
def unpack48 (x : List Nat) : Nat :=
  beVal x

/-- The specification's serial-type-5 decode: the two's-complement signed
interpretation of the 6 big-endian payload bytes. -/
def int48Signed (x : List Nat) : Int :=
  toSigned 6 (beVal x)

/-!
### Cell headers and cell decoding

Sources: `_parseLeafTableCellHeader` (lines 1443–1519),
`_parseLeafIndexCellHeader` (lines 1521–1576),
`_parseInteriorTableCellHeader` (lines 1578–1596), `_getoverflowdata`
(lines 1230–1242) and `_parseCell` (lines 1244–1422).  The page-kind
constants are the source's module constants.
-/

def INTERIOR_INDEX_BTREE_PAGE : Int := 2
def INTERIOR_TABLE_BTREE_PAGE : Int := 5
def LEAF_INDEX_BTREE_PAGE : Int := 10
def LEAF_TABLE_BTREE_PAGE : Int := 13

/-- The serial-type dispatch shared by the three cell-header parsers
(e.g. lines 1489–1516). -/
def serialTypeDesc (fieldtype : Nat) : FieldDesc :=
  if fieldtype = 0 then .nullT
  else if fieldtype = 1 then .int8T
  else if fieldtype = 2 then .int16T
  else if fieldtype = 3 then .int24T
  else if fieldtype = 4 then .int32T
  else if fieldtype = 5 then .int48T
  else if fieldtype = 6 then .int64T
  else if fieldtype = 7 then .floatT
  else if fieldtype = 8 then .c0T
  else if fieldtype = 9 then .c1T
  else if fieldtype > 11 then
    if fieldtype % 2 = 0 then .blobT ((fieldtype - 12) / 2)
    else .textT ((fieldtype - 13) / 2)
  else .reservedT fieldtype

/-- The `while offset < payloadheaderlenofs` loop of the cell-header
parsers: reads serial-type varints until the offset reaches `target`,
returning the `headerlist` and the final offset (the start of the payload
fields).  The loop always advances (every varint is at least one byte), so
the fuel is an upper bound on iterations, not a semantic feature. -/
def parseSerialTypes (data : List Nat) (offset target : Nat) (fuel : Nat) :
    Except String (List FieldDesc × Nat) :=
  if offset < target then
    match fuel with
    | 0 => .error "fuel exhausted"
    | fuel + 1 =>
      match getVarIntOfs data offset with
      | .error e => .error e
      | .ok (fieldtype, len) =>
        match parseSerialTypes data (offset + len) target fuel with
        | .error e => .error e
        | .ok (rest, final) => .ok (serialTypeDesc fieldtype :: rest, final)
  else .ok ([], offset)

/-- The 8-tuple returned by `_parseLeafTableCellHeader`.
`payloadsizeincell` is the source's returned value, i.e. already
diminished by `payloadheaderlen` (line 1519), hence possibly negative. -/
structure CellHeaderInfo where
  headerlist : List FieldDesc
  payloadheaderlen : Nat
  dataoffset : Nat
  payloadlen : Nat
  recordnum : Nat
  payloadsizeincell : Int
  overflowpageoffset : Int
  overflowpagenum : Nat
  deriving DecidableEq

/-- The 6-tuple returned by `_parseLeafIndexCellHeader`. -/
structure IndexCellHeaderInfo where
  headerlist : List FieldDesc
  payloadheaderlen : Nat
  dataoffset : Nat
  payloadlen : Nat
  overflowpageoffset : Int
  overflowpagenum : Nat
  deriving DecidableEq

/-- `_parseLeafTableCellHeader(data, offset, freespace)`.  With
`freespace = false` it first reads the payload-length and record-number
varints, computes `payloadsizeincell = int(round(_getPayloadSizeInCell
(payloadlen)))` (`round` of an integer is itself), advances
`overflowpageoffset` by the varint lengths and `payloadsizeincell`, and
reads the 4-byte overflow page number there whenever
`payloadlen > pageSize - unused_reserved_space - 35`, zeroing it when it
is `≤ 1` or `≥ in_header_database_size`.  With `freespace = true` all of
that is skipped (`payloadlen = recordnum = 0`).  Then the serial-type
vector is read up to `payloadheaderlenofs = offset + payloadheaderlen`
counted from BEFORE the payload-header-length varint. -/
def parseLeafTableCellHeader (hdr : DBHeader) (data : List Nat) (offset : Nat)
    (freespace : Bool) (fuel : Nat) : Except String CellHeaderInfo := do
  let (payloadlen, l1) ← if freespace then pure ((0 : Nat), (0 : Nat))
                         else getVarIntOfs data offset
  let (recordnum, l2) ← if freespace then pure ((0 : Nat), (0 : Nat))
                        else getVarIntOfs data (offset + l1)
  let offset2 := offset + l1 + l2
  let (payloadheaderlen, l3) ← getVarIntOfs data offset2
  let payloadheaderlenofs := offset2 + payloadheaderlen
  let offset3 := offset2 + l3
  let psic : Int := if freespace then 0
                    else getPayloadSizeInCell hdr.pageSize (payloadlen : Int)
  let overflowpageoffset : Int := (offset : Int) + l1 + l2 + (if freespace then 0 else psic)
  let overflowpagenum ←
    if freespace then pure (0 : Nat)
    else if (payloadlen : Int) > (hdr.pageSize : Int) - hdr.reserved - 35 then do
      let n ← unpackExactU 4 (pySlice data overflowpageoffset (overflowpageoffset + 4))
      if n ≤ 1 ∨ (n : Int) ≥ hdr.dbSize then pure 0 else pure n
    else pure 0
  let (headerlist, dataoffset) ← parseSerialTypes data offset3 payloadheaderlenofs fuel
  .ok { headerlist := headerlist
        payloadheaderlen := payloadheaderlen
        dataoffset := dataoffset
        payloadlen := payloadlen
        recordnum := recordnum
        payloadsizeincell := psic - payloadheaderlen
        overflowpageoffset := overflowpageoffset
        overflowpagenum := overflowpagenum }

/-- `_parseLeafIndexCellHeader(data, offset)`: as the leaf-table header
but with no record-number varint, no `int(round(...))` wrapper on the
payload size, and no `≤ 1` / `≥ in_header_database_size` clamping of the
overflow page number. -/
def parseLeafIndexCellHeader (hdr : DBHeader) (data : List Nat) (offset : Nat)
    (fuel : Nat) : Except String IndexCellHeaderInfo := do
  let (payloadlen, l1) ← getVarIntOfs data offset
  let offset1 := offset + l1
  let (payloadheaderlen, l2) ← getVarIntOfs data offset1
  let payloadheaderlenofs := offset1 + payloadheaderlen
  let offset2 := offset1 + l2
  let overflowpageoffset : Int :=
    (offset : Int) + l1 + getPayloadSizeInCell hdr.pageSize (payloadlen : Int)
  let overflowpagenum ←
    if (payloadlen : Int) > (hdr.pageSize : Int) - hdr.reserved - 35 then
      unpackExactU 4 (pySlice data overflowpageoffset (overflowpageoffset + 4))
    else pure (0 : Nat)
  let (headerlist, dataoffset) ← parseSerialTypes data offset2 payloadheaderlenofs fuel
  .ok { headerlist := headerlist
        payloadheaderlen := payloadheaderlen
        dataoffset := dataoffset
        payloadlen := payloadlen
        overflowpageoffset := overflowpageoffset
        overflowpagenum := overflowpagenum }

/-- `_parseInteriorTableCellHeader(data, offset)`: 4-byte left-child page
number, then the record-number varint. -/
def parseInteriorTableCellHeader (data : List Nat) (offset : Nat) :
    Except String (Nat × Nat × Nat) := do
  let pagechildleftnum ← unpackExactU 4 (pySliceN data offset (offset + 4))
  let (recordnum, len) ← getVarIntOfs data (offset + 4)
  .ok (pagechildleftnum, recordnum, offset + 4 + len)

/-- The loop of `_getoverflowdata`: `pagenum` is the source's 0-based page
index (an `Int`: it starts at `pageNr - 1` and becomes `next - 1`, both of
which can be negative, ending the loop).  Each iteration appends
`pagenum + 1` to the visited list, reads the 4-byte next-page number at
the page start (a short read raises `struct.error`), and appends bytes
`[offset+4, offset+pageSize-reserved)` to the payload.  The source loop
can cycle forever on adversarial input; fuel exhaustion models that
non-termination as an error. -/
def getoverflowdataGo (hdr : DBHeader) (data : List Nat) :
    Int → Nat → Except String (List Nat × List Nat)
  | pagenum, fuel =>
    if pagenum > 0 ∧ pagenum < hdr.dbSize then
      match fuel with
      | 0 => .error "fuel exhausted"
      | fuel + 1 => do
        let offset : Nat := (pagenum * hdr.pageSize).toNat
        let nextRaw ← unpackExactU 4 (pySliceN data offset (offset + 4))
        let chunk := pySlice data ((offset : Int) + 4)
                       ((offset : Int) + hdr.pageSize - hdr.reserved)
        let (rest, vis) ← getoverflowdataGo hdr data ((nextRaw : Int) - 1) fuel
        .ok (chunk ++ rest, (pagenum.toNat + 1) :: vis)
    else .ok ([], [])

/-- `_getoverflowdata(pageNr)`: the concatenated overflow payload and, in
visit order, the 1-based page numbers appended to `self.overflowpages`. -/
def getoverflowdata (hdr : DBHeader) (data : List Nat) (pageNr : Nat)
    (fuel : Nat) : Except String (List Nat × List Nat) :=
  getoverflowdataGo hdr data ((pageNr : Int) - 1) fuel

/-- The field-decoding loop of `_parseCell`'s leaf-table branch
(lines 1270–1317), decoding `payload` from relative offset `off` guided by
`headerlist`.  A `NULL` serial type appends `recordnum`; `ST_INT24`
appends the literal `"-"` but still advances; `ST_INT48` is the unsigned
`_unpack48` of a clamped 6-byte slice (total); `ST_C0`/`ST_C1` append
`"0"`/`"1"`; a `Reserved` type appends nothing and does not advance;
short slices for the fixed-width `struct` reads raise. -/
def parseFieldsTable (payload : List Nat) (recordnum : Nat) :
    List FieldDesc → Nat → Except String (List Value)
  | [], _ => .ok []
  | f :: fs, off =>
    match f with
    | .nullT => do
      let rest ← parseFieldsTable payload recordnum fs off
      .ok (.intV recordnum :: rest)
    | .int8T => do
      let v ← unpackExactU 1 (pySliceN payload off (off + 1))
      let rest ← parseFieldsTable payload recordnum fs (off + 1)
      .ok (.intV v :: rest)
    | .int16T => do
      let v ← unpackExactS 2 (pySliceN payload off (off + 2))
      let rest ← parseFieldsTable payload recordnum fs (off + 2)
      .ok (.intV v :: rest)
    | .int24T => do
      let rest ← parseFieldsTable payload recordnum fs (off + 3)
      .ok (.text [45] :: rest)
    | .int32T => do
      let v ← unpackExactS 4 (pySliceN payload off (off + 4))
      let rest ← parseFieldsTable payload recordnum fs (off + 4)
      .ok (.intV v :: rest)
    | .int48T => do
      let rest ← parseFieldsTable payload recordnum fs (off + 6)
      .ok (.intV (unpack48 (pySliceN payload off (off + 6))) :: rest)
    | .int64T => do
      let v ← unpackExactS 8 (pySliceN payload off (off + 8))
      let rest ← parseFieldsTable payload recordnum fs (off + 8)
      .ok (.intV v :: rest)
    | .floatT => do
      let v ← unpackExactU 8 (pySliceN payload off (off + 8))
      let rest ← parseFieldsTable payload recordnum fs (off + 8)
      .ok (.floatBits v :: rest)
    | .c0T => do
      let rest ← parseFieldsTable payload recordnum fs off
      .ok (.text [48] :: rest)
    | .c1T => do
      let rest ← parseFieldsTable payload recordnum fs off
      .ok (.text [49] :: rest)
    | .blobT n => do
      let rest ← parseFieldsTable payload recordnum fs (off + n)
      .ok (.blobV (pySliceN payload off (off + n)) :: rest)
    | .textT n => do
      let rest ← parseFieldsTable payload recordnum fs (off + n)
      .ok (decodeTextField (pySliceN payload off (off + n)) :: rest)
    | .reservedT _ => parseFieldsTable payload recordnum fs off

/-- The field-decoding loop of `_parseCell`'s leaf-index branch
(lines 1320–1366): as the leaf-table loop, except `NULL`, `ST_C0` and
`ST_C1` all append the literal `"-"`, and — as in the source — the fields
are read from the whole `data` buffer at the absolute `dataoffset`, not
from an extracted payload. -/
def parseFieldsIndex (data : List Nat) :
    List FieldDesc → Nat → Except String (List Value)
  | [], _ => .ok []
  | f :: fs, off =>
    match f with
    | .nullT => do
      let rest ← parseFieldsIndex data fs off
      .ok (.text [45] :: rest)
    | .int8T => do
      let v ← unpackExactU 1 (pySliceN data off (off + 1))
      let rest ← parseFieldsIndex data fs (off + 1)
      .ok (.intV v :: rest)
    | .int16T => do
      let v ← unpackExactS 2 (pySliceN data off (off + 2))
      let rest ← parseFieldsIndex data fs (off + 2)
      .ok (.intV v :: rest)
    | .int24T => do
      let rest ← parseFieldsIndex data fs (off + 3)
      .ok (.text [45] :: rest)
    | .int32T => do
      let v ← unpackExactS 4 (pySliceN data off (off + 4))
      let rest ← parseFieldsIndex data fs (off + 4)
      .ok (.intV v :: rest)
    | .int48T => do
      let rest ← parseFieldsIndex data fs (off + 6)
      .ok (.intV (unpack48 (pySliceN data off (off + 6))) :: rest)
    | .int64T => do
      let v ← unpackExactS 8 (pySliceN data off (off + 8))
      let rest ← parseFieldsIndex data fs (off + 8)
      .ok (.intV v :: rest)
    | .floatT => do
      let v ← unpackExactU 8 (pySliceN data off (off + 8))
      let rest ← parseFieldsIndex data fs (off + 8)
      .ok (.floatBits v :: rest)
    | .c0T => do
      let rest ← parseFieldsIndex data fs off
      .ok (.text [45] :: rest)
    | .c1T => do
      let rest ← parseFieldsIndex data fs off
      .ok (.text [45] :: rest)
    | .blobT n => do
      let rest ← parseFieldsIndex data fs (off + n)
      .ok (.blobV (pySliceN data off (off + n)) :: rest)
    | .textT n => do
      let rest ← parseFieldsIndex data fs (off + n)
      .ok (decodeTextField (pySliceN data off (off + n)) :: rest)
    | .reservedT _ => parseFieldsIndex data fs off

/-- The field-decoding loop of `_parseFreeSpaceCell` (lines 470–517): as
the leaf-table loop except `ST_INT48` is read with the 4-byte format
`">i"` applied to a 6-byte slice (which therefore raises unless the
clamped slice happens to hold exactly 4 bytes), and `ST_C0`/`ST_C1`
append `"-"`. -/
def parseFieldsFreeSpace (payload : List Nat) (recordnum : Nat) :
    List FieldDesc → Nat → Except String (List Value)
  | [], _ => .ok []
  | f :: fs, off =>
    match f with
    | .nullT => do
      let rest ← parseFieldsFreeSpace payload recordnum fs off
      .ok (.intV recordnum :: rest)
    | .int8T => do
      let v ← unpackExactU 1 (pySliceN payload off (off + 1))
      let rest ← parseFieldsFreeSpace payload recordnum fs (off + 1)
      .ok (.intV v :: rest)
    | .int16T => do
      let v ← unpackExactS 2 (pySliceN payload off (off + 2))
      let rest ← parseFieldsFreeSpace payload recordnum fs (off + 2)
      .ok (.intV v :: rest)
    | .int24T => do
      let rest ← parseFieldsFreeSpace payload recordnum fs (off + 3)
      .ok (.text [45] :: rest)
    | .int32T => do
      let v ← unpackExactS 4 (pySliceN payload off (off + 4))
      let rest ← parseFieldsFreeSpace payload recordnum fs (off + 4)
      .ok (.intV v :: rest)
    | .int48T => do
      let v ← unpackExactS 4 (pySliceN payload off (off + 6))
      let rest ← parseFieldsFreeSpace payload recordnum fs (off + 6)
      .ok (.intV v :: rest)
    | .int64T => do
      let v ← unpackExactS 8 (pySliceN payload off (off + 8))
      let rest ← parseFieldsFreeSpace payload recordnum fs (off + 8)
      .ok (.intV v :: rest)
    | .floatT => do
      let v ← unpackExactU 8 (pySliceN payload off (off + 8))
      let rest ← parseFieldsFreeSpace payload recordnum fs (off + 8)
      .ok (.floatBits v :: rest)
    | .c0T => do
      let rest ← parseFieldsFreeSpace payload recordnum fs off
      .ok (.text [45] :: rest)
    | .c1T => do
      let rest ← parseFieldsFreeSpace payload recordnum fs off
      .ok (.text [45] :: rest)
    | .blobT n => do
      let rest ← parseFieldsFreeSpace payload recordnum fs (off + n)
      .ok (.blobV (pySliceN payload off (off + n)) :: rest)
    | .textT n => do
      let rest ← parseFieldsFreeSpace payload recordnum fs (off + n)
      .ok (decodeTextField (pySliceN payload off (off + n)) :: rest)
    | .reservedT _ => parseFieldsFreeSpace payload recordnum fs off

/-- `_parseCell(data, offset, cellformat)`: returns the source's
`(celldatalist, payloadlen)` pair, extended with the list of overflow
pages the call appended to `self.overflowpages`.  The leaf-table branch
extracts the local payload `data[dataoffset : dataoffset +
payloadsizeincell]`, concatenates overflow data when an overflow page was
recorded, and decodes the fields; the leaf-index branch decodes fields
directly from `data` (no payload extraction, no overflow concatenation);
the interior-table branch emits the left-child page and record number; the
interior-index branch parses a leaf-index header (its field loop is
commented out in the source) and emits nothing. -/
def parseCell (hdr : DBHeader) (data : List Nat) (offset : Nat)
    (cellformat : Int) (fuel : Nat) :
    Except String (List Value × Nat × List Nat) :=
  if cellformat = LEAF_TABLE_BTREE_PAGE then do
    let ch ← parseLeafTableCellHeader hdr data offset false fuel
    let localPayload := pySlice data (ch.dataoffset : Int)
                          ((ch.dataoffset : Int) + ch.payloadsizeincell)
    let (ovf, vis) ← if ch.overflowpagenum > 0 then
                       getoverflowdata hdr data ch.overflowpagenum fuel
                     else pure (([] : List Nat), ([] : List Nat))
    let payload := localPayload ++ ovf
    let vals ← parseFieldsTable payload ch.recordnum ch.headerlist 0
    .ok (vals, ch.payloadlen, vis)
  else if cellformat = LEAF_INDEX_BTREE_PAGE then do
    let ch ← parseLeafIndexCellHeader hdr data offset fuel
    let vals ← parseFieldsIndex data ch.headerlist ch.dataoffset
    .ok (vals, ch.payloadlen, [])
  else if cellformat = INTERIOR_TABLE_BTREE_PAGE then do
    let (pagechildnum, recordnum, _) ← parseInteriorTableCellHeader data offset
    .ok ([.intV pagechildnum, .intV recordnum], 0, [])
  else if cellformat = INTERIOR_INDEX_BTREE_PAGE then do
    let ch ← parseLeafIndexCellHeader hdr data offset fuel
    .ok ([], ch.payloadlen, [])
  else
    .ok ([], 0, [])

/-- `_parseFreeSpaceCell(data, offset, cellformat)`: the free-space
variant — a leaf-table cell header parsed with `freespace=True` (so the
payload is everything from `dataoffset` on, and no overflow is possible),
then the free-space field loop. -/
def parseFreeSpaceCell (hdr : DBHeader) (fullData : List Nat)
    (data : List Nat) (offset : Nat) (fuel : Nat) :
    Except String (List Value × Nat × List Nat) := do
  let ch ← parseLeafTableCellHeader hdr data offset true fuel
  let localPayload := pySliceN data ch.dataoffset data.length
  let (ovf, vis) ← if ch.overflowpagenum > 0 then
                     getoverflowdata hdr fullData ch.overflowpagenum fuel
                   else pure (([] : List Nat), ([] : List Nat))
  let payload := localPayload ++ ovf
  let vals ← parseFieldsFreeSpace payload ch.recordnum ch.headerlist 0
  .ok (vals, ch.payloadlen, vis)

/-!
### Page headers and whole-page reading

Sources: `_parsePageHeader` (lines 583–602), `_readPageCellPointer`
(lines 534–547), `_readLeafPageList` (lines 414–426),
`_readPageUnallocated` (lines 521–532), `_readPointerMap`
(lines 549–573), `_readPageFreeSpace` (lines 428–454), `_readPageCells`
(lines 401–412), `_readDBPage` (lines 343–399), `_readallDBPages`
(lines 329–341), `_markOverflowPages` (lines 145–149) and `__init__`
(lines 102–143).
-/

/-- The page-header dictionary built by `_parsePageHeader`: the `>bhhhb`
fields (all signed) plus the optional `>I` right-most pointer. -/
structure PageHeaderP where
  pageByte : Int
  fbOffset : Int
  cellQty : Int
  cellOffset : Int
  freebytes : Int
  rmpointer : Option Nat
  deriving DecidableEq

/-- `_parsePageHeader(page, pageNr)`: `unpack('>bhhhb', ...)` of
`page[100:108]` for page 1 and `page[:8]` otherwise (raising
`struct.error` when the slice is short), plus — only when the kind byte is
the interior-table kind — the `>I` right-most pointer at `[108:112]` /
`[8:12]`. -/
def parsePageHeader (page : List Nat) (pageNr : Nat) :
    Except String PageHeaderP := do
  let base := if pageNr = 1 then 100 else 0
  if (pySliceN page base (base + 8)).length = 8 then
    let pageByte := toSigned 1 (beVal (pySliceN page base (base + 1)))
    let fbOffset := toSigned 2 (beVal (pySliceN page (base + 1) (base + 3)))
    let cellQty := toSigned 2 (beVal (pySliceN page (base + 3) (base + 5)))
    let cellOffset := toSigned 2 (beVal (pySliceN page (base + 5) (base + 7)))
    let freebytes := toSigned 1 (beVal (pySliceN page (base + 7) (base + 8)))
    let rmpointer ← if pageByte = INTERIOR_TABLE_BTREE_PAGE then do
        let r ← unpackExactU 4 (pySliceN page (base + 8) (base + 12))
        pure (some r)
      else pure none
    .ok { pageByte := pageByte, fbOffset := fbOffset, cellQty := cellQty,
          cellOffset := cellOffset, freebytes := freebytes,
          rmpointer := rmpointer }
  else .error "struct.error"

/-- `_readPageCellPointer(page, pageHeader, pageNr)`: the raw
cell-pointer-array bytes.  When `cellQty ≤ 0` the source leaves the Python
integer `0` in place of a byte string; that value is never consumed as
bytes on any reachable path, and is modelled as `[]`. -/
def readPageCellPointer (page : List Nat) (ph : PageHeaderP) (pageNr : Nat) :
    List Nat :=
  if ph.cellQty > 0 then
    let start : Int :=
      if pageNr = 1 ∧ ph.pageByte ≠ INTERIOR_TABLE_BTREE_PAGE then 108
      else if pageNr = 1 ∧ ph.pageByte = INTERIOR_TABLE_BTREE_PAGE then 112
      else if ph.pageByte = INTERIOR_TABLE_BTREE_PAGE then 12
      else 8
    pySlice page start (start + ph.cellQty * 2)
  else []

/-- The loop of `_readLeafPageList`: each cell pointer is read with the
SIGNED format `'>h'` (unlike `_readPageCells`' `'>H'`), and the 4-byte
left-child page number is read from the whole file at `offset + cellp`. -/
def readLeafPageListGo (data : List Nat) (cellPointer : List Nat)
    (offset : Nat) : Nat → Nat → Except String (List Nat)
  | _, 0 => .ok []
  | i, n + 1 => do
    let cellp ← unpackExactS 2 (pySliceN cellPointer (2 * i) (2 * i + 2))
    let leftchild ← unpackExactU 4
      (pySlice data ((offset : Int) + cellp) ((offset : Int) + cellp + 4))
    let rest ← readLeafPageListGo data cellPointer offset (i + 1) n
    .ok (leftchild :: rest)

/-- `_readLeafPageList(dbpage, offset)`: the left-child page numbers of
every cell, with the right-most pointer appended.  On the only reachable
path (interior-table pages) `rmpointer` is always `some`; the `getD 0`
covers the unreachable `None` case. -/
def readLeafPageList (data : List Nat) (cellPointer : List Nat)
    (cellQty : Int) (offset : Nat) (rmpointer : Option Nat) :
    Except String (List Nat) := do
  let lst ← readLeafPageListGo data cellPointer offset 0 cellQty.toNat
  .ok (lst ++ [rmpointer.getD 0])

/-- `_readPageUnallocated(dbpage)`.  Note the source computes
`end = cellOffset - start` and then slices `page[start:end]` — the upper
bound is the DIFFERENCE, not `cellOffset` itself. -/
def readPageUnallocated (pageNr : Nat) (pageByte cellQty cellOffset : Int)
    (page : List Nat) : List Nat :=
  let start : Int :=
    if pageNr = 1 ∧ pageByte ≠ INTERIOR_TABLE_BTREE_PAGE then 108 + cellQty * 2
    else if pageNr = 1 ∧ pageByte = INTERIOR_TABLE_BTREE_PAGE then 112 + cellQty * 2
    else if pageByte = INTERIOR_TABLE_BTREE_PAGE then 12 + cellQty * 2
    else 8 + cellQty * 2
  pySlice page start (cellOffset - start)

/-- The specification's unallocated region: the byte range between the end
of the cell-pointer array (`start`, computed as in the source) and the
page's `cell_content_start` offset, i.e. `page[start : cellOffset]`. -/
def specUnallocatedRegion (pageNr : Nat) (pageByte cellQty cellOffset : Int)
    (page : List Nat) : List Nat :=
  let start : Int :=
    if pageNr = 1 ∧ pageByte ≠ INTERIOR_TABLE_BTREE_PAGE then 108 + cellQty * 2
    else if pageNr = 1 ∧ pageByte = INTERIOR_TABLE_BTREE_PAGE then 112 + cellQty * 2
    else if pageByte = INTERIOR_TABLE_BTREE_PAGE then 12 + cellQty * 2
    else 8 + cellQty * 2
  pySlice page start cellOffset

/-- The loop of `_readPointerMap(page)`: 5-byte `'>bI'` records from
offset 0 while `offset < pageSize - 5`, stopping early at an all-zero
record.  The offset grows by 5 each step, so fuel `pageSize` suffices. -/
def readPointerMapGo (pageSize : Nat) (page : List Nat) :
    Nat → Nat → Except String (List (Int × Nat))
  | offset, fuel =>
    if (offset : Int) < (pageSize : Int) - 5 then
      match fuel with
      | 0 => .error "fuel exhausted"
      | fuel + 1 =>
        let s5 := pySliceN page offset (offset + 5)
        if s5.length = 5 then
          let pageType := toSigned 1 (beVal (s5.take 1))
          let pageNrF := beVal (s5.drop 1)
          if pageType = 0 ∧ pageNrF = 0 then .ok []
          else do
            let rest ← readPointerMapGo pageSize page (offset + 5) fuel
            .ok ((pageType, pageNrF) :: rest)
        else .error "struct.error"
    else .ok []

/-- `_readPointerMap(page)`: the pointer-map records appended to
`self.ptrMap`. -/
def readPointerMap (hdr : DBHeader) (page : List Nat) :
    Except String (List (Int × Nat)) :=
  readPointerMapGo hdr.pageSize page 0 hdr.pageSize

/-- One iteration body of the `try:` block in `_readPageFreeSpace`:
unpack `'>hh'` at the free-block offset, and when `size > 0` extract the
block and run `_parseFreeSpaceCell` on it; any raise is caught by the
caller.  Returns the block bytes (`[]` models the source's `''` for
non-positive sizes), the `fs_data` value after the iteration, and the
`start` offset of the next block. -/
def readPageFreeSpaceTry (hdr : DBHeader) (fullData : List Nat)
    (page : List Nat) (fb : Int) (fsPrev : List Value) (fuel : Nat) :
    Except String (List Nat × List Value × Int) := do
  let s4 := pySlice page fb (fb + 4)
  if s4.length = 4 then
    let start := toSigned 2 (beVal (s4.take 2))
    let size := toSigned 2 (beVal (s4.drop 2))
    if size > 0 then do
      let freeblock := pySlice page fb (fb + size)
      let (fsNew, _plen, _vis) ← parseFreeSpaceCell hdr fullData freeblock 4 fuel
      .ok (freeblock, fsNew, start)
    else .ok ([], fsPrev, start)
  else .error "struct.error"

/-- The `while fbOffset > 0` loop of `_readPageFreeSpace`.  An exception
inside the `try:` sets `fbOffset = 0`, ending the walk with the lists
accumulated so far and nothing appended for the failing block.  When
`size ≤ 0` the previous `fs_data` value is appended again, as in the
source (the variable is reused across iterations).  Cycle protection: the
next offset is taken only when it is positive and differs from the
current one; a two-block cycle still loops forever in the source, which
fuel exhaustion models as an error. -/
def readPageFreeSpaceGo (hdr : DBHeader) (fullData : List Nat)
    (page : List Nat) :
    Int → List (List Nat) → List (List Value) → List Value → Nat →
    Except String (List (List Nat) × List (List Value))
  | fb, fbl, fcl, fsPrev, fuel =>
    if fb > 0 then
      match fuel with
      | 0 => .error "fuel exhausted"
      | fuel + 1 =>
        match readPageFreeSpaceTry hdr fullData page fb fsPrev fuel with
        | .error _ => .ok (fbl, fcl)
        | .ok (freeblock, fsNew, start) =>
          let fb' := if fb ≠ start ∧ start > 0 then start else 0
          readPageFreeSpaceGo hdr fullData page fb'
            (fbl ++ [freeblock]) (fcl ++ [fsNew]) fsNew fuel
    else .ok (fbl, fcl)

/-- `_readPageFreeSpace(dbpage)`: the `(freeblocklist, fs_celldata)`
pair. -/
def readPageFreeSpace (hdr : DBHeader) (fullData : List Nat)
    (page : List Nat) (fbOffset : Int) (fuel : Nat) :
    Except String (List (List Nat) × List (List Value)) :=
  readPageFreeSpaceGo hdr fullData page fbOffset [] [] [] fuel

/-- The loop of `_readPageCells`: cell pointers are read with the
UNSIGNED format `'>H'` and each cell decoded by `_parseCell` with NO
exception handling — a raise propagates out of the page.  Also returns
the overflow pages appended to `self.overflowpages` by the decoded
cells. -/
def readPageCellsGo (hdr : DBHeader) (data : List Nat)
    (cellPointer : List Nat) (offset : Nat) (pageByte : Int) (fuel : Nat) :
    Nat → Nat → Except String (List (List Value) × List Nat)
  | _, 0 => .ok ([], [])
  | i, n + 1 => do
    let cellp ← unpackExactU 2 (pySliceN cellPointer (2 * i) (2 * i + 2))
    let (celldata, _plen, vis) ← parseCell hdr data (offset + cellp) pageByte fuel
    let (rest, visr) ← readPageCellsGo hdr data cellPointer offset pageByte fuel (i + 1) n
    .ok (celldata :: rest, vis ++ visr)

/-- `_readPageCells(dbpage, offset)`. -/
def readPageCells (hdr : DBHeader) (data : List Nat) (cellPointer : List Nat)
    (cellQty : Int) (offset : Nat) (pageByte : Int) (fuel : Nat) :
    Except String (List (List Value) × List Nat) :=
  readPageCellsGo hdr data cellPointer offset pageByte fuel 0 cellQty.toNat

/-- The per-page dictionary built by `_readDBPage` (the fields consumed
by the embedded code; `deleteddata` is never read and omitted). -/
structure DBPage where
  pageNr : Nat
  pageOffset : Nat
  pageHeader : PageHeaderP
  pageType : String
  cellPointer : List Nat
  celldata : List (List Value)
  leafpages : List Nat
  hasLeafPages : Bool
  unallocated : List Nat
  freespace : List (List Nat)
  fs_celldata : List (List Value)
  isRootPage : Bool
  deriving DecidableEq

/-- `_readDBPage(pageNr, offset)`: slice out the page, decode the
pointer map when `pageNr == 2` and incremental vacuum is on (its records
go to `self.ptrMap`, which no claim consumes; its exceptions are
preserved), parse the page header, classify, read the cell-pointer
array, the leaf-page list (interior-table pages), the cells (the four
B-tree kinds with a positive cell count), the unallocated region and the
free blocks.  The second component is the list of overflow pages
appended to `self.overflowpages` while decoding this page's cells. -/
def readDBPage (hdr : DBHeader) (data : List Nat) (pageNr : Nat)
    (offset : Nat) (fuel : Nat) : Except String (DBPage × List Nat) := do
  let pageSize := hdr.pageSize
  let page := pySliceN data offset (offset + pageSize)
  let _ ← if pageNr = 2 ∧ hdr.incrementalVacuum > 0 then do
      let _ ← readPointerMap hdr page
      pure ()
    else pure ()
  let ph ← parsePageHeader page pageNr
  let pageType :=
    if ph.pageByte = INTERIOR_INDEX_BTREE_PAGE then "interior index b-tree"
    else if ph.pageByte = INTERIOR_TABLE_BTREE_PAGE then "interior table b-tree"
    else if ph.pageByte = LEAF_INDEX_BTREE_PAGE then "leaf index b-tree"
    else if ph.pageByte = LEAF_TABLE_BTREE_PAGE then "leaf table b-tree"
    else if pageNr = 2 ∧ hdr.incrementalVacuum > 0 then "pointer map"
    else "Unknown"
  let cellPointer := readPageCellPointer page ph pageNr
  let (leafpages, hasLeaf) ←
    if ph.pageByte = INTERIOR_TABLE_BTREE_PAGE then do
      let lp ← readLeafPageList data cellPointer ph.cellQty offset ph.rmpointer
      pure (lp, true)
    else pure (([] : List Nat), false)
  let (celldata, vis) ←
    if (ph.pageByte = LEAF_TABLE_BTREE_PAGE ∨ ph.pageByte = LEAF_INDEX_BTREE_PAGE ∨
        ph.pageByte = INTERIOR_TABLE_BTREE_PAGE ∨ ph.pageByte = INTERIOR_INDEX_BTREE_PAGE) ∧
        ph.cellQty > 0 then
      readPageCells hdr data cellPointer ph.cellQty offset ph.pageByte fuel
    else pure (([] : List (List Value)), ([] : List Nat))
  let unallocated := readPageUnallocated pageNr ph.pageByte ph.cellQty ph.cellOffset page
  let (freespace, fs_celldata) ← readPageFreeSpace hdr data page ph.fbOffset fuel
  .ok ({ pageNr := pageNr, pageOffset := offset, pageHeader := ph,
         pageType := pageType, cellPointer := cellPointer,
         celldata := celldata, leafpages := leafpages,
         hasLeafPages := hasLeaf, unallocated := unallocated,
         freespace := freespace, fs_celldata := fs_celldata,
         isRootPage := false }, vis)

/-- `_getPageOffsets`: `range(0, len(data), pageSize)`.  Only called with
`pageSize > 0` (`initParser` models the `ValueError` of a zero step). -/
def getPageOffsets (dataLen pageSize : Nat) : List Nat :=
  if pageSize = 0 then []
  else (List.range ((dataLen + pageSize - 1) / pageSize)).map (· * pageSize)

/-- The loop of `_readallDBPages`: pages numbered from 1, one per offset,
each entry stored under its page number; overflow visits accumulate in
processing order. -/
def readallDBPagesGo (hdr : DBHeader) (data : List Nat) (fuel : Nat) :
    Nat → List Nat → Except String (List (Nat × DBPage) × List Nat)
  | _, [] => .ok ([], [])
  | pageNr, offset :: rest => do
    let (pg, vis) ← readDBPage hdr data pageNr offset fuel
    let (pages, visr) ← readallDBPagesGo hdr data fuel (pageNr + 1) rest
    .ok ((pageNr, pg) :: pages, vis ++ visr)

/-- `_readallDBPages()`: the final `self.dbPages` dictionary (as an
association list keyed by page number) and the accumulated
`self.overflowpages` list. -/
def readallDBPages (hdr : DBHeader) (data : List Nat) (fuel : Nat) :
    Except String (List (Nat × DBPage) × List Nat) :=
  readallDBPagesGo hdr data fuel 1 (getPageOffsets data.length hdr.pageSize)

/-- `_markOverflowPages()`: every page whose `pageNr` is in
`self.overflowpages` gets `pageType = 'Overflow Page'`, overwriting
whatever classification its header byte produced. -/
def markOverflowPages (pages : List (Nat × DBPage)) (ovf : List Nat) :
    List (Nat × DBPage) :=
  pages.map (fun kp =>
    if kp.2.pageNr ∈ ovf then (kp.1, { kp.2 with pageType := "Overflow Page" })
    else kp)

/-- The parser state built by `SQLiteDBParser.__init__` (the parts the
claims consume).  `header = none` models the `'N'`-placeholder installed
when the 100-byte header unpack fails. -/
structure ParserState where
  header : Option DBHeader
  dbPages : List (Nat × DBPage)
  overflowpages : List Nat
  deriving DecidableEq

/-- `isSqliteDB()`: the stored signature equals `SQLite format 3\x00`.
With the string placeholder installed by a failed header unpack the
stored "signature" is the single character `'N'`, never equal to the
byte literal; hence `false` on the `none` model. -/
def isSqliteDB (st : ParserState) : Bool :=
  match st.header with
  | some h => decide (h.signature = SQLITE_SIGNATURE)
  | none => false

/-- `SQLiteDBParser.__init__` up to and including `_markOverflowPages`:
read the data, parse the header (installing the placeholder on files
shorter than 100 bytes), return early when `isSqliteDB()` is false
(leaving `dbPages` empty), otherwise compute the page offsets (a zero
page size makes `range` raise `ValueError`), read every page and mark
the overflow pages.  The subsequent phases of `__init__`
(`_parseDBSchema`, `_setSchemaForRootPages`, `_lPagesWithoutRoot`,
lines 139–143) only attach schema annotations and deleted-page links; no
claim in this development depends on them, and every theorem below about
`initParser` either exercises the early-return path (on which the source
reaches none of them) or an error raised in an earlier phase (which in
the source propagates out of the constructor before they run). -/
def initParser (data : List Nat) (fuel : Nat) : Except String ParserState :=
  match parseDBHeader data with
  | none => .ok { header := none, dbPages := [], overflowpages := [] }
  | some h =>
    if h.signature = SQLITE_SIGNATURE then
      if h.pageSize = 0 then .error "ValueError: range() arg 3 must not be zero"
      else
        match readallDBPages h data fuel with
        | .error e => .error e
        | .ok (pages, ovf) =>
          .ok { header := some h, dbPages := markOverflowPages pages ovf,
                overflowpages := ovf }
    else .ok { header := some h, dbPages := [], overflowpages := [] }

/-!
### Concrete fixtures

Hand-assembled byte strings and header records used by the concrete
evaluations below (counterexamples and witnesses).
-/

/-- A header typical of a small database: page size 512, no reserved
tail, declared UTF-8 text. -/
def hdr512 : DBHeader :=
  { signature := SQLITE_SIGNATURE, pageSize := 512, reserved := 0,
    dbSize := 2, textEncoding := 1, incrementalVacuum := 0 }

/-- As `hdr512` but with declared text encoding 2 (UTF-16LE). -/
def hdrUtf16 : DBHeader :=
  { signature := SQLITE_SIGNATURE, pageSize := 512, reserved := 0,
    dbSize := 2, textEncoding := 2, incrementalVacuum := 0 }

/-- A well-formed leaf-table cell: payload length 4, row id 42, payload
header `[3, int8, NULL]`, body `[7]`.  Its two columns decode from serial
types `int8` and `NULL`. -/
def cellNullSecond : List Nat := [4, 42, 3, 1, 0, 7]

/-- A well-formed leaf-table cell with one text column: payload length 4,
row id 1, payload header `[2, 17]` (serial type 17 = text of 2 bytes),
body `[65, 0]` — the UTF-16LE encoding of `"A"`. -/
def cellUtf16Text : List Nat := [4, 1, 2, 17, 65, 0]

/-- A page image holding the good cell `cellNullSecond` at offset 0 and,
at offset 6, a cell whose first varint byte has the high bit set with no
byte following — decoding it raises. -/
def twoCellData : List Nat := [4, 42, 3, 1, 0, 7, 128]

/-- Cell-pointer bytes for `twoCellData`: cells at offsets 0 and 6. -/
def twoCellPointers : List Nat := [0, 0, 0, 6]

/-- Cell-pointer bytes for a page holding only `cellNullSecond`. -/
def oneCellPointers : List Nat := [0, 0]

/-- A database file of 517 bytes: a valid 100-byte header declaring page
size 512 inside an all-zero page 1, followed by a truncated final page of
5 bytes.  `517 = 512 + 5` is not a multiple of the page size. -/
def truncatedTailFile : List Nat :=
  SQLITE_SIGNATURE ++ [2, 0] ++ List.replicate 499 0

/-- Header for the truncated-page witness: page size 512, no vacuum. -/
def hdrPlain512 : DBHeader :=
  { signature := SQLITE_SIGNATURE, pageSize := 512, reserved := 0,
    dbSize := 0, textEncoding := 0, incrementalVacuum := 0 }

/-- A 522-byte file: one full zero page of 512 bytes and a truncated
final page of 10 zero bytes (enough for the 8-byte page header). -/
def truncatedTenFile : List Nat := List.replicate 522 0

/-- Header for the overflow fixture: page size 256, declared database
size 4 pages. -/
def hdrOvf : DBHeader :=
  { signature := SQLITE_SIGNATURE, pageSize := 256, reserved := 0,
    dbSize := 4, textEncoding := 1, incrementalVacuum := 0 }

/-- Page 2 of the overflow fixture: a leaf-table page with one cell at
offset 64.  The cell's payload length 222 exceeds the overflow threshold
`256 − 0 − 35`, its local payload size is 7, and the 4-byte overflow
page number 3 sits at cell offset 10. -/
def ovfPage2 : List Nat :=
  [13, 0, 0, 0, 1, 0, 200, 0] ++ [0, 64] ++ List.replicate 54 0 ++
  [129, 94, 1, 2, 24, 1, 2, 3, 4, 5] ++ [0, 0, 0, 3] ++ List.replicate 178 0

/-- The overflow fixture file: 4 pages of 256 bytes; page 1 is zeroed
(its page header lives at offset 100), page 2 holds the overflowing cell,
pages 3 and 4 are zeroed (page 3 is the overflow page, whose first 4
zero bytes terminate the chain). -/
def ovfData : List Nat :=
  List.replicate 256 0 ++ ovfPage2 ++ List.replicate 512 0

/-- A fallback `DBPage` used only as the unreachable default of `match`
projections from evaluated parser runs. -/
def defaultDBPage : DBPage :=
  { pageNr := 0, pageOffset := 0,
    pageHeader := { pageByte := 0, fbOffset := 0, cellQty := 0,
                    cellOffset := 0, freebytes := 0, rmpointer := none },
    pageType := "", cellPointer := [], celldata := [], leafpages := [],
    hasLeafPages := false, unallocated := [], freespace := [],
    fs_celldata := [], isRootPage := false }

/-- The page map produced by the overflow-fixture run. -/
def ovfPages : List (Nat × DBPage) :=
  match readallDBPages hdrOvf ovfData 1000 with
  | .ok (pages, _) => pages
  | .error _ => []

/-- The global overflow-pages list produced by the overflow-fixture
run. -/
def ovfList : List Nat :=
  match readallDBPages hdrOvf ovfData 1000 with
  | .ok (_, ovf) => ovf
  | .error _ => []

/-- The decoded page 2 of the overflow fixture. -/
def ovfPg2 : DBPage :=
  match readDBPage hdrOvf ovfData 2 256 1000 with
  | .ok (pg, _) => pg
  | .error _ => defaultDBPage

/-- The overflow pages visited while decoding page 2 of the fixture. -/
def ovfVis2 : List Nat :=
  match readDBPage hdrOvf ovfData 2 256 1000 with
  | .ok (_, vis) => vis
  | .error _ => []

/-- The page-map entry for page 3 after overflow marking in the
fixture run. -/
def ovfEntry3 : DBPage :=
  match List.lookup 3 (markOverflowPages ovfPages ovfList) with
  | some p => p
  | none => defaultDBPage

/-- A 30-byte page image with distinct byte values, for exercising
`_readPageUnallocated`. -/
def rangePage : List Nat := List.range 30

/-!
### Helper lemmas
-/

/-- Inversion of a successful `Except` bind. -/
theorem bind_eq_ok {α β : Type} {x : Except String α} {f : α → Except String β}
    {b : β} : x >>= f = .ok b ↔ ∃ a, x = .ok a ∧ f a = .ok b := by
  cases x <;> simp [Bind.bind, Except.bind]

/-- A prefix slice has the expected length. -/
theorem pySliceN_zero_length (l : List α) (n : Nat) :
    (pySliceN l 0 n).length = min n l.length := by
  have h : ¬ ((n : Int) < 0) := by omega
  simp [pySliceN, pySlice, pyIdx, h, Nat.min_assoc]

/-- `getD` through `drop`. -/
theorem drop_getD (l : List α) (m n : Nat) (d : α) :
    (l.drop m).getD n d = l.getD (m + n) d := by
  simp [List.getD_eq_getElem?_getD, List.getElem?_drop]

/-- `List.lookup` on a cons cell, with the match exposed as an `if`. -/
theorem lookup_cons {β : Type} (v k : Nat) (x : β) (l : List (Nat × β)) :
    List.lookup v ((k, x) :: l) = if v == k then some x else List.lookup v l := by
  rw [List.lookup]
  cases v == k <;> simp

/-- The scan loop of `_getVarIntOfs` stops exactly at the first byte with
a clear high bit. -/
theorem scanList_firstClear (l : List Nat) (t : Nat) (ht : t < l.length)
    (hrun : ∀ i, i < t → 128 ≤ l.getD i 0) (hstop : l.getD t 0 < 128) :
    scanList l = .ok (t + 1) := by
  induction l generalizing t with
  | nil => simp at ht
  | cons b rest ih =>
    cases t with
    | zero =>
      simp only [List.getD_cons_zero] at hstop
      simp [scanList, Nat.not_le.mpr hstop]
    | succ s =>
      have hb : 128 ≤ b := by
        have := hrun 0 (Nat.succ_pos s)
        simpa using this
      have hrest : scanList rest = .ok (s + 1) := by
        refine ih s (by simpa using ht) (fun i hi => ?_) (by simpa using hstop)
        have := hrun (i + 1) (by omega)
        simpa using this
      simp [scanList, hb, hrest]

/-- A successful lookup provides list membership. -/
theorem lookup_mem {l : List (Nat × DBPage)} {a : Nat} {b : DBPage}
    (h : List.lookup a l = some b) : (a, b) ∈ l := by
  induction l with
  | nil => simp [List.lookup] at h
  | cons kp rest ih =>
    obtain ⟨k, x⟩ := kp
    rw [lookup_cons] at h
    by_cases hk : a = k
    · rw [if_pos (beq_iff_eq.mpr hk)] at h
      simp only [Option.some.injEq] at h
      subst hk
      subst h
      exact List.mem_cons_self _ _
    · rw [if_neg (by simp [hk])] at h
      exact List.mem_cons.mpr (Or.inr (ih h))

/-- `_markOverflowPages` as a lookup transformer. -/
theorem lookup_markOverflowPages (pages : List (Nat × DBPage))
    (ovf : List Nat) (v : Nat) :
    List.lookup v (markOverflowPages pages ovf) =
      (List.lookup v pages).map (fun pg =>
        if pg.pageNr ∈ ovf then { pg with pageType := "Overflow Page" }
        else pg) := by
  induction pages with
  | nil => simp [markOverflowPages]
  | cons kp rest ih =>
    obtain ⟨k, pg⟩ := kp
    have hcons : markOverflowPages ((k, pg) :: rest) ovf =
        (k, if pg.pageNr ∈ ovf then { pg with pageType := "Overflow Page" }
            else pg) :: markOverflowPages rest ovf := by
      by_cases hin : pg.pageNr ∈ ovf <;> simp [markOverflowPages, hin]
    rw [hcons, lookup_cons, lookup_cons]
    by_cases hk : v = k
    · rw [if_pos (beq_iff_eq.mpr hk), if_pos (beq_iff_eq.mpr hk)]
      rfl
    · rw [if_neg (by simp [hk]), if_neg (by simp [hk])]
      exact ih

/-- Whatever path `_readDBPage` takes, the page dictionary it returns
records the page number it was called with. -/
theorem readDBPage_pageNr (hdr : DBHeader) (data : List Nat) (n off fuel : Nat)
    (pg : DBPage) (vis : List Nat)
    (h : readDBPage hdr data n off fuel = .ok (pg, vis)) : pg.pageNr = n := by
  unfold readDBPage at h
  repeat'
    first
    | (rw [bind_eq_ok] at h
       obtain ⟨_, -, h⟩ := h)
    | split at h
  all_goals
    simp only [Except.ok.injEq, Prod.mk.injEq] at h
    obtain ⟨h1, -⟩ := h
    rw [← h1]

/-- Every successful whole-file read decomposes into successful
single-page reads whose overflow visits all land in the accumulated
list, and every stored page records its own page number. -/
theorem readallDBPagesGo_nth (hdr : DBHeader) (data : List Nat) (fuel : Nat) :
    ∀ (offs : List Nat) (n : Nat) (pages : List (Nat × DBPage)) (ovf : List Nat),
      readallDBPagesGo hdr data fuel n offs = .ok (pages, ovf) →
      (∀ i (hi : i < offs.length), ∃ pg vis,
          readDBPage hdr data (n + i) (offs.get ⟨i, hi⟩) fuel = .ok (pg, vis) ∧
          (∀ x ∈ vis, x ∈ ovf)) ∧
      (∀ kp ∈ pages, kp.2.pageNr = kp.1) := by
  intro offs
  induction offs with
  | nil =>
    intro n pages ovf h
    refine ⟨fun i hi => absurd hi (by simp), ?_⟩
    simp only [readallDBPagesGo] at h
    cases h
    simp
  | cons off rest ih =>
    intro n pages ovf h
    simp only [readallDBPagesGo, bind_eq_ok] at h
    obtain ⟨⟨pg, vis⟩, hpg, h⟩ := h
    obtain ⟨⟨pages', ovf'⟩, hrest, h⟩ := h
    simp only [Except.ok.injEq, Prod.mk.injEq] at h
    obtain ⟨hpages, hovf⟩ := h
    obtain ⟨ihnth, ihkeys⟩ := ih (n + 1) pages' ovf' hrest
    constructor
    · intro i hi
      cases i with
      | zero =>
        refine ⟨pg, vis, by simpa using hpg, fun x hx => ?_⟩
        rw [← hovf]
        exact List.mem_append.mpr (Or.inl hx)
      | succ j =>
        obtain ⟨pg', vis', hr, hsub⟩ := ihnth j (by simpa using hi)
        refine ⟨pg', vis', ?_, fun x hx => ?_⟩
        · simpa [Nat.add_assoc, Nat.add_comm 1 j] using hr
        · rw [← hovf]
          exact List.mem_append.mpr (Or.inr (hsub x hx))
    · intro kp hkp
      rw [← hpages] at hkp
      rcases List.mem_cons.mp hkp with hkp | hkp
      · subst hkp
        exact readDBPage_pageNr hdr data n off fuel pg vis hpg
      · exact ihkeys kp hkp

/-- `_parsePageHeader` on a non-first page with at least 8 bytes and a
non-interior-table kind byte succeeds with the unpacked fields. -/
theorem parsePageHeader_ok (page : List Nat) (pageNr : Nat)
    (h1 : pageNr ≠ 1) (h3 : 8 ≤ page.length)
    (h4 : toSigned 1 (beVal (pySliceN page 0 1)) ≠ 5) :
    parsePageHeader page pageNr = .ok
      { pageByte := toSigned 1 (beVal (pySliceN page 0 1)),
        fbOffset := toSigned 2 (beVal (pySliceN page 1 3)),
        cellQty := toSigned 2 (beVal (pySliceN page 3 5)),
        cellOffset := toSigned 2 (beVal (pySliceN page 5 7)),
        freebytes := toSigned 1 (beVal (pySliceN page 7 8)),
        rmpointer := none } := by
  have hlen : (pySliceN page 0 8).length = 8 := by
    rw [pySliceN_zero_length]; omega
  simp only [parsePageHeader, if_neg h1, INTERIOR_TABLE_BTREE_PAGE]
  simp [hlen, h4, Bind.bind, Except.bind, Pure.pure, Except.pure]

/-- Bind of an `Except.ok` value reduces. -/
theorem ok_bind {A B : Type} (a : A) (f : A → Except String B) :
    (Except.ok a : Except String A) >>= f = f a := rfl

/-- The free-block walk does nothing when the first-free-block offset is
not positive. -/
theorem readPageFreeSpace_nonpos (hdr : DBHeader) (fullData page : List Nat)
    (fb : Int) (fuel : Nat) (h : fb ≤ 0) :
    readPageFreeSpace hdr fullData page fb fuel = .ok ([], []) := by
  unfold readPageFreeSpace readPageFreeSpaceGo
  rw [if_neg (by omega)]

/-!
### Claim theorems
-/

/-- C6: after parser construction completes, every page index visited
while following any overflow chain (the visit list returned by the page
read that followed the chain) is a member of the global overflow-pages
list, and the entry for that index in the marked page map has
classification `Overflow Page`, regardless of what its own header byte
classified it as. -/
theorem overflow_pages_marked (hdr : DBHeader) (data : List Nat) (fuel : Nat)
    (pages : List (Nat × DBPage)) (ovf : List Nat) (i : Nat)
    (pg : DBPage) (vis : List Nat) (v : Nat) (p : DBPage)
    (h1 : readallDBPages hdr data fuel = .ok (pages, ovf))
    (h2 : i < (getPageOffsets data.length hdr.pageSize).length)
    (h3 : readDBPage hdr data (1 + i)
        ((getPageOffsets data.length hdr.pageSize).get ⟨i, h2⟩) fuel = .ok (pg, vis))
    (h4 : v ∈ vis)
    (h5 : List.lookup v (markOverflowPages pages ovf) = some p) :
    v ∈ ovf ∧ p.pageType = "Overflow Page" := by
  obtain ⟨hnth, hkeys⟩ :=
    readallDBPagesGo_nth hdr data fuel (getPageOffsets data.length hdr.pageSize)
      1 pages ovf h1
  obtain ⟨pg', vis', hr, hsub⟩ := hnth i h2
  rw [h3] at hr
  obtain ⟨hpg', hvis'⟩ := Prod.mk.injEq .. ▸ Except.ok.inj hr
  have hv : v ∈ ovf := hsub v (hvis' ▸ h4)
  refine ⟨hv, ?_⟩
  rw [lookup_markOverflowPages] at h5
  cases hl : List.lookup v pages with
  | none => rw [hl] at h5; simp at h5
  | some pg0 =>
    rw [hl] at h5
    rw [show ((some pg0).map (fun pg =>
        if pg.pageNr ∈ ovf then { pg with pageType := "Overflow Page" }
        else pg)) = some (if pg0.pageNr ∈ ovf then
          { pg0 with pageType := "Overflow Page" } else pg0) from rfl] at h5
    rw [Option.some.injEq] at h5
    have hkey : pg0.pageNr = v := hkeys (v, pg0) (lookup_mem hl)
    rw [if_pos (by rw [hkey]; exact hv)] at h5
    rw [← h5]

/-- C8: on a leaf-table page (kind byte 13) at page number 2 with one
cell and `cell_content_start = 20`, the recorded unallocated range is
empty, while the byte range between the end of the cell-pointer array
(offset 10) and `cell_content_start` holds the ten bytes 10–19: the
source slices `page[start : cellOffset - start]`, not
`page[start : cellOffset]`. -/
theorem unallocated_slice_bug :
    readPageUnallocated 2 13 1 20 rangePage = [] ∧
    specUnallocatedRegion 2 13 1 20 rangePage =
      [10, 11, 12, 13, 14, 15, 16, 17, 18, 19] ∧
    readPageUnallocated 2 13 1 20 rangePage ≠
      specUnallocatedRegion 2 13 1 20 rangePage := by
  decide

/-- C9: `_unpack48` reads the six bytes `80 00 00 00 00 00` as the
unsigned value `2^47`, whereas the two's-complement signed interpretation
required by the serial-type specification is `-2^47`; the code never
produces a negative value for a 6-byte field with its top bit set. -/
theorem unpack48_unsigned_bug :
    unpack48 [128, 0, 0, 0, 0, 0] = 140737488355328 ∧
    int48Signed [128, 0, 0, 0, 0, 0] = -140737488355328 ∧
    (unpack48 [128, 0, 0, 0, 0, 0] : Int) ≠ int48Signed [128, 0, 0, 0, 0, 0] := by
  decide

/-- C7 (amended): the text-field decode of `_parseCell` equals the
specification's decode for declared encoding 1 (UTF-8) on every byte
string — the source always decodes UTF-8 and never consults the declared
encoding, falling back to the `str(bytes)` representation when UTF-8
decoding fails. -/
theorem decodeTextField_is_utf8 (bs : List Nat) :
    decodeTextField bs = specTextDecode 1 bs := by
  cases h : utf8Decode bs <;> simp [decodeTextField, specTextDecode, h]

/-- C7 (counterexample): in a file whose declared text encoding is 2
(UTF-16LE), a leaf-table cell with the two text bytes `41 00` — the
UTF-16LE encoding of `"A"` — decodes to the two code points `[65, 0]`
(a UTF-8 reading), not to the declared-encoding decode `[65]`. -/
theorem text_encoding_ignored :
    parseCell hdrUtf16 cellUtf16Text 0 13 100 =
      .ok ([.text [65, 0]], 4, []) ∧
    specTextDecode hdrUtf16.textEncoding [65, 0] = .text [65] ∧
    Value.text [65, 0] ≠ Value.text [65] := by
  decide

/-- C5 (counterexample): decoding a leaf-table cell with row id 42 whose
payload header is `[int8, NULL]` yields `[7, 42]` — the NULL serial type
in the SECOND column is replaced by the cell's row id 42 instead of
being decoded as NULL. -/
theorem null_second_column_is_rowid :
    parseCell hdr512 cellNullSecond 0 13 100 =
      .ok ([.intV 7, .intV 42], 4, []) := by
  decide

/-- C3 (counterexample): a leaf-table page holding a well-formed cell at
offset 0 and a malformed cell at offset 6 (a varint whose high bit never
clears before the end of the buffer) fails to decode as a whole: the
raise propagates out of `_readPageCells`, so the well-formed cell never
appears in any cell list (and, uncaught, aborts parser construction). -/
theorem malformed_cell_aborts_page :
    readPageCells hdr512 twoCellData twoCellPointers 2 0 13 100 =
      .error "TypeError: ord() expected a character" := by
  decide

/-- C1 (counterexample): on the 1-byte slice `80` the varint decoder
raises (`ord` of an empty slice) instead of clamping to the slice length,
and on nine continuation bytes followed by `01` it returns length 10 —
it does not stop unconditionally after the 9th byte. -/
theorem varint_unbounded_and_raises :
    getVarIntOfs [128] 0 = .error "TypeError: ord() expected a character" ∧
    getVarIntOfs [128, 128, 128, 128, 128, 128, 128, 128, 128, 1] 0 =
      .ok (1, 10) := by
  decide

/-- C2 (counterexample): with page size 512 and reserved tail 16, the
source computes the local payload size of a 470-byte payload as 470
(wholly local, since it compares against `512 - 35`), while the
specification formula with usable size `U = 512 - 16` gives 37 — the
source ignores the reserved tail. -/
theorem payload_size_ignores_reserved :
    getPayloadSizeInCell 512 470 = 470 ∧
    specLocalPayload (512 - 16) 470 = 37 ∧
    getPayloadSizeInCell 512 470 ≠ specLocalPayload (512 - 16) 470 := by
  decide

/-- C10: for every input shorter than 100 bytes the constructor
completes without raising: the failed header unpack is swallowed (the
placeholder header, modelled as `none`, is installed), `isSqliteDB()`
returns `false`, and no pages are read — the page map stays empty. -/
theorem short_file_constructs_empty (data : List Nat) (fuel : Nat)
    (h : data.length < 100) :
    initParser data fuel = .ok { header := none, dbPages := [], overflowpages := [] } ∧
    isSqliteDB { header := none, dbPages := [], overflowpages := [] } = false := by
  have hh : parseDBHeader data = none := by
    unfold parseDBHeader
    rw [if_neg (by omega)]
  unfold initParser
  rw [hh]
  exact ⟨rfl, rfl⟩

/-- C10 (witness): the 3-byte input `[1, 2, 3]`. -/
theorem short_file_constructs_empty_witness :
    initParser [1, 2, 3] 100 = .ok { header := none, dbPages := [], overflowpages := [] } ∧
    isSqliteDB { header := none, dbPages := [], overflowpages := [] } = false :=
  short_file_constructs_empty [1, 2, 3] 100 (by decide)

/-- C1 (amended): the varint decoder scans to the FIRST byte whose high
bit is clear, with no cap at 9 bytes: when byte `j` is the first such
byte, it returns the value of the run `[offset, j]` and its length
`j + 1 - offset`, however long that run is.  (When no such byte exists
before the end of the buffer it raises instead of clamping — see the
counterexample.) -/
theorem getVarIntOfs_firstClear (data : List Nat) (offset j : Nat)
    (h1 : offset ≤ j) (h2 : j < data.length)
    (h3 : ∀ k, offset ≤ k → k < j → 128 ≤ data.getD k 0)
    (h4 : data.getD j 0 < 128) :
    getVarIntOfs data offset =
      .ok (varIntVal ((data.drop offset).take (j + 1 - offset)), j + 1 - offset) := by
  have hscan : scanList (data.drop offset) = .ok (j - offset + 1) := by
    apply scanList_firstClear (data.drop offset) (j - offset)
    · rw [List.length_drop]; omega
    · intro i hi
      rw [drop_getD]
      exact h3 (offset + i) (by omega) (by omega)
    · rw [drop_getD, show offset + (j - offset) = j by omega]
      exact h4
  unfold getVarIntOfs
  rw [hscan, show j - offset + 1 = j + 1 - offset by omega]

/-- C1 (witness): the two-byte varint `87 68` decodes to `(1000, 2)`. -/
theorem getVarIntOfs_firstClear_witness :
    getVarIntOfs [135, 104] 0 = .ok (1000, 2) := by
  have h := getVarIntOfs_firstClear [135, 104] 0 1 (by decide) (by decide)
    (by intro k hk1 hk2
        have : k = 0 := by omega
        subst this
        decide)
    (by decide)
  exact h.trans (by decide)

/-- C2 (amended): for every payload length, the local-payload-size
computation equals the specification formula evaluated with usable size
`U = page_size` — the reserved tail is NOT subtracted (the source sets
`usableSize` to the page size alone). -/
theorem getPayloadSizeInCell_eq_spec (pageSize l : Nat) (h : 12 ≤ pageSize) :
    getPayloadSizeInCell pageSize (l : Int) =
      specLocalPayload (pageSize : Int) (l : Int) := by
  have hnn : (0 : Int) ≤ ((pageSize : Int) - 12) * 32 := by
    have : (12 : Int) ≤ (pageSize : Int) := by exact_mod_cast h
    nlinarith
  have hd : Int.tdiv (((pageSize : Int) - 12) * 32) 255 =
      Int.fdiv (((pageSize : Int) - 12) * 32) 255 := by
    rw [Int.tdiv_eq_ediv hnn (by norm_num), Int.fdiv_eq_ediv _ (by norm_num)]
  simp only [getPayloadSizeInCell, specLocalPayload, hd]

/-- C2 (witness): page size 512, payload length 470. -/
theorem getPayloadSizeInCell_eq_spec_witness :
    getPayloadSizeInCell 512 470 = specLocalPayload 512 470 := by
  have h := getPayloadSizeInCell_eq_spec 512 470 (by norm_num)
  exact_mod_cast h

/-- The cell loop of `_readPageCells` succeeds only when every single
cell pointer unpacks and every single cell decodes. -/
theorem readPageCellsGo_all_ok (hdr : DBHeader) (data : List Nat)
    (cp : List Nat) (off : Nat) (pb : Int) (fuel : Nat) :
    ∀ (n i : Nat) (cells : List (List Value)) (vis : List Nat),
      readPageCellsGo hdr data cp off pb fuel i n = .ok (cells, vis) →
      ∀ m, m < n → ∃ ptr r,
        unpackExactU 2 (pySliceN cp (2 * (i + m)) (2 * (i + m) + 2)) = .ok ptr ∧
        parseCell hdr data (off + ptr) pb fuel = .ok r := by
  intro n
  induction n with
  | zero => intro i cells vis h m hm; omega
  | succ k ih =>
    intro i cells vis h m hm
    simp only [readPageCellsGo, bind_eq_ok] at h
    obtain ⟨ptr, hptr, h⟩ := h
    obtain ⟨⟨cd, plen, vis1⟩, hcell, h⟩ := h
    obtain ⟨⟨rest, visr⟩, hrest, -⟩ := h
    cases m with
    | zero =>
      refine ⟨ptr, (cd, plen, vis1), ?_, ?_⟩
      · simpa using hptr
      · simpa using hcell
    | succ m' =>
      obtain ⟨ptr', r', hp, hc⟩ := ih (i + 1) rest visr hrest m' (by omega)
      refine ⟨ptr', r', ?_, hc⟩
      rw [show 2 * (i + (m' + 1)) = 2 * (i + 1 + m') by ring]
      exact hp

/-- C3 (amended): a malformed cell is NOT merely dropped — the page's
cell list exists only when every one of its cells decodes: from a
successful `_readPageCells` one can extract a successful pointer unpack
and a successful `_parseCell` for every cell index.  Contrapositively, a
single failing cell aborts the whole page read (and, uncaught, parser
construction) — see the counterexample. -/
theorem page_ok_requires_every_cell (hdr : DBHeader) (data : List Nat)
    (cp : List Nat) (q : Int) (off : Nat) (pb : Int) (fuel : Nat)
    (cells : List (List Value)) (vis : List Nat)
    (h : readPageCells hdr data cp q off pb fuel = .ok (cells, vis))
    (m : Nat) (hm : m < q.toNat) :
    ∃ ptr r, unpackExactU 2 (pySliceN cp (2 * m) (2 * m + 2)) = .ok ptr ∧
      parseCell hdr data (off + ptr) pb fuel = .ok r := by
  have := readPageCellsGo_all_ok hdr data cp off pb fuel q.toNat 0 cells vis h m hm
  simpa using this

/-- C3 (witness): a one-cell page that decodes successfully, from which
the theorem extracts the decoded cell. -/
theorem page_ok_requires_every_cell_witness :
    ∃ ptr r, unpackExactU 2 (pySliceN oneCellPointers 0 2) = .ok ptr ∧
      parseCell hdr512 cellNullSecond (0 + ptr) 13 100 = .ok r := by
  have h := page_ok_requires_every_cell hdr512 cellNullSecond oneCellPointers 1 0 13 100
    [[.intV 7, .intV 42]] [] (by decide) 0 (by decide)
  simpa using h

/-- Inversion for one step of the leaf-table field loop: every
non-`Reserved` serial type appends exactly one value, and a `NULL`
appends the record number. -/
theorem parseFieldsTable_cons_ok (payload : List Nat) (rn : Nat)
    (f : FieldDesc) (fs : List FieldDesc) (off : Nat) (out : List Value)
    (h : parseFieldsTable payload rn (f :: fs) off = .ok out)
    (hf : f.isReserved = false) :
    ∃ v out' off2, out = v :: out' ∧
      parseFieldsTable payload rn fs off2 = .ok out' ∧
      (f = .nullT → v = .intV rn) := by
  cases f
  case reservedT c => exact nomatch hf
  case nullT =>
    simp only [parseFieldsTable, bind_eq_ok] at h
    obtain ⟨rest, hrest, h⟩ := h
    rw [Except.ok.injEq] at h
    exact ⟨_, rest, off, h.symm, hrest, fun _ => rfl⟩
  all_goals
    simp only [parseFieldsTable, bind_eq_ok] at h
    first
    | (obtain ⟨a, -, h⟩ := h
       obtain ⟨rest, hrest, h⟩ := h
       rw [Except.ok.injEq] at h
       exact ⟨_, rest, _, h.symm, hrest, fun hh => nomatch hh⟩)
    | (obtain ⟨rest, hrest, h⟩ := h
       rw [Except.ok.injEq] at h
       exact ⟨_, rest, _, h.symm, hrest, fun hh => nomatch hh⟩)

/-- C5 (amended): in the leaf-table field loop, a `NULL` serial type at
ANY position — not only the first — is replaced by the cell's row id:
when every serial type is non-`Reserved`, the output has one value per
serial type and the value at every `NULL` position is `recordnum`. -/
theorem null_any_position_is_rowid (payload : List Nat) (rn : Nat) :
    ∀ (fields : List FieldDesc) (off : Nat) (out : List Value),
      parseFieldsTable payload rn fields off = .ok out →
      (∀ f ∈ fields, f.isReserved = false) →
      out.length = fields.length ∧
      ∀ i (hi : i < fields.length) (ho : i < out.length),
        fields.get ⟨i, hi⟩ = .nullT → out.get ⟨i, ho⟩ = .intV rn := by
  intro fields
  induction fields with
  | nil =>
    intro off out h hres
    simp only [parseFieldsTable, Except.ok.injEq] at h
    subst h
    exact ⟨rfl, fun i hi => absurd hi (by simp)⟩
  | cons f fs ih =>
    intro off out h hres
    obtain ⟨v, out', off2, hout, hrec, hnull⟩ :=
      parseFieldsTable_cons_ok payload rn f fs off out h
        (hres f (List.mem_cons_self f fs))
    obtain ⟨hlen, hidx⟩ := ih off2 out' hrec
      (fun g hg => hres g (List.mem_cons_of_mem f hg))
    subst hout
    refine ⟨by simpa using hlen, ?_⟩
    intro i hi ho hf
    cases i with
    | zero => exact hnull hf
    | succ j => exact hidx j (by simpa using hi) (by simpa using ho) hf

set_option maxRecDepth 40000 in
/-- C4 (counterexample): a 517-byte file — a valid header declaring page
size 512 followed by a truncated final page of 5 bytes — makes the
constructor raise: the 8-byte page-header unpack of the short page fails
with `struct.error`, which nothing catches. -/
theorem truncated_tail_crashes :
    initParser truncatedTailFile 1000 = .error "struct.error" := by
  decide

/-- C4 (amended): the parser does NOT always survive a truncated final
page — a final page shorter than 8 bytes aborts construction (see the
counterexample).  When the truncated page still holds the full 8-byte
header, is not page 1, is not an incremental-vacuum pointer-map page,
has a kind byte that is none of the four B-tree kinds, and has a
non-positive first-free-block offset, it is read successfully and
recorded with classification `Unknown`, an empty cell list and no free
blocks; pages are read independently, so the other pages are
unaffected. -/
theorem truncated_page_unknown (hdr : DBHeader) (data : List Nat)
    (pageNr offset fuel : Nat)
    (h1 : pageNr ≠ 1)
    (h2 : ¬ (pageNr = 2 ∧ hdr.incrementalVacuum > 0))
    (h3 : 8 ≤ (pySliceN data offset (offset + hdr.pageSize)).length)
    (hne2 : toSigned 1 (beVal (pySliceN (pySliceN data offset (offset + hdr.pageSize)) 0 1)) ≠ 2)
    (hne5 : toSigned 1 (beVal (pySliceN (pySliceN data offset (offset + hdr.pageSize)) 0 1)) ≠ 5)
    (hne10 : toSigned 1 (beVal (pySliceN (pySliceN data offset (offset + hdr.pageSize)) 0 1)) ≠ 10)
    (hne13 : toSigned 1 (beVal (pySliceN (pySliceN data offset (offset + hdr.pageSize)) 0 1)) ≠ 13)
    (h5 : toSigned 2 (beVal (pySliceN (pySliceN data offset (offset + hdr.pageSize)) 1 3)) ≤ 0) :
    ∃ pg vis, readDBPage hdr data pageNr offset fuel = .ok (pg, vis) ∧
      pg.pageType = "Unknown" ∧ pg.celldata = [] ∧ pg.freespace = [] := by
  have hph := parsePageHeader_ok (pySliceN data offset (offset + hdr.pageSize)) pageNr h1 h3 hne5
  unfold readDBPage
  simp only [INTERIOR_INDEX_BTREE_PAGE, INTERIOR_TABLE_BTREE_PAGE,
    LEAF_INDEX_BTREE_PAGE, LEAF_TABLE_BTREE_PAGE] at hph ⊢
  rw [if_neg h2, pure_bind, hph, ok_bind]
  rw [if_neg hne5, pure_bind]
  have hcell : ¬ ((toSigned 1 (beVal (pySliceN (pySliceN data offset (offset + hdr.pageSize)) 0 1)) = 13 ∨
      toSigned 1 (beVal (pySliceN (pySliceN data offset (offset + hdr.pageSize)) 0 1)) = 10 ∨
      toSigned 1 (beVal (pySliceN (pySliceN data offset (offset + hdr.pageSize)) 0 1)) = 5 ∨
      toSigned 1 (beVal (pySliceN (pySliceN data offset (offset + hdr.pageSize)) 0 1)) = 2) ∧
      toSigned 2 (beVal (pySliceN (pySliceN data offset (offset + hdr.pageSize)) 3 5)) > 0) := by
    simp [hne2, hne5, hne10, hne13]
  rw [if_neg hcell, pure_bind]
  rw [readPageFreeSpace_nonpos hdr data (pySliceN data offset (offset + hdr.pageSize)) _ fuel h5, ok_bind]
  rw [if_neg hne2, if_neg hne5, if_neg hne10, if_neg hne13, if_neg h2]
  exact ⟨_, _, rfl, rfl, rfl, rfl⟩

set_option maxRecDepth 40000 in
/-- C4 (witness): a 522-byte all-zero file read with page size 512: the
truncated final page holds 10 zero bytes, whose kind byte 0 and
free-block offset 0 satisfy the theorem's hypotheses. -/
theorem truncated_page_unknown_witness :
    ∃ pg vis, readDBPage hdrPlain512 truncatedTenFile 2 512 100 = .ok (pg, vis) ∧
      pg.pageType = "Unknown" ∧ pg.celldata = [] ∧ pg.freespace = [] := by
  exact truncated_page_unknown hdrPlain512 truncatedTenFile 2 512 100
    (by decide) (by decide) (by decide) (by decide) (by decide) (by decide)
    (by decide) (by decide)

set_option maxRecDepth 100000 in
set_option maxHeartbeats 4000000 in
/-- C6 (witness): in the overflow fixture, page 3 is visited by the
overflow chain of page 2's single cell; it lands in the global
overflow-pages list and its page-map entry is reclassified
`Overflow Page` (its own header bytes are all zero, which would classify
it `Unknown`). -/
theorem overflow_pages_marked_witness :
    List.lookup 3 (markOverflowPages ovfPages ovfList) = some ovfEntry3 ∧
    3 ∈ ovfList ∧ ovfEntry3.pageType = "Overflow Page" := by
  have h1 : readallDBPages hdrOvf ovfData 1000 = .ok (ovfPages, ovfList) := by decide
  have h2 : (1 : Nat) < (getPageOffsets ovfData.length hdrOvf.pageSize).length := by decide
  have hget : (getPageOffsets ovfData.length hdrOvf.pageSize).get ⟨1, h2⟩ = 256 := by rfl
  have h3' : readDBPage hdrOvf ovfData (1 + 1) 256 1000 = .ok (ovfPg2, ovfVis2) := by decide
  have h3 : readDBPage hdrOvf ovfData (1 + 1)
      ((getPageOffsets ovfData.length hdrOvf.pageSize).get ⟨1, h2⟩) 1000 =
      .ok (ovfPg2, ovfVis2) := by rw [hget]; exact h3'
  have h4 : 3 ∈ ovfVis2 := by decide
  have h5 : List.lookup 3 (markOverflowPages ovfPages ovfList) = some ovfEntry3 := by decide
  have h := overflow_pages_marked hdrOvf ovfData 1000 ovfPages ovfList 1
    ovfPg2 ovfVis2 3 ovfEntry3 h1 h2 h3 h4 h5
  exact ⟨h5, h.1, h.2⟩

/-- C5 (witness): the field list `[int8, NULL]` with record number 5 and
payload `[9]` decodes to `[9, 5]`; the theorem pins the second (index 1,
non-first) value to the record number. -/
theorem null_any_position_is_rowid_witness :
    parseFieldsTable [9] 5 [.int8T, .nullT] 0 = .ok [.intV 9, .intV 5] ∧
    ([FieldDesc.int8T, FieldDesc.nullT].get ⟨1, by decide⟩ = FieldDesc.nullT) ∧
    ([Value.intV 9, Value.intV 5].get ⟨1, by decide⟩ = .intV 5) := by
  refine ⟨by decide, by decide, ?_⟩
  exact (null_any_position_is_rowid [9] 5 [.int8T, .nullT] 0
    [.intV 9, .intV 5] (by decide) (by decide)).2 1 (by decide) (by decide) (by decide)

end SQLiteDBParser
